import Mathlib

set_option linter.unusedVariables false

/-!
Shallow embedding of the dispatch/aggregation engine of the web-scrobbler
repository (src/core/background/object/scrobble-service.js,
src/core/background/object/scrobble-batch-result.js,
src/core/background/scrobbler/base-scrobbler.js).

JavaScript promises are modelled with `Except`: a fulfilled promise is
`Except.ok v`, a rejected one is `Except.error r`.  The concurrent
`Promise.all` join is modelled sequentially in list order, which is faithful
for every property stated here (settle-all membership and per-slot outcomes
do not depend on completion order).  Module-level mutable state
(`boundScrobblers`) is passed explicitly.
-/

namespace WebScrobbler

/-- The result constants of service-call-result.js (ServiceCallResult):
the four string constants RESULT_OK, RESULT_IGNORE, ERROR_AUTH, ERROR_OTHER. -/
inductive ServiceCallResult where
  | RESULT_OK
  | RESULT_IGNORE
  | ERROR_AUTH
  | ERROR_OTHER
deriving DecidableEq, Repr

/-- A scrobbler (backend) instance: its identity (`getId`, `getLabel`),
its batch limit (`getMaxTrackCountToScrobble`), its capability flags
(`canLoveSong`, `canLoadSongInfo`) and the answer its
`isReadyForGrantAccess` query would give.  Object identity in JavaScript is
modelled by structural equality of this record. -/
structure Scrobbler where
  id : String
  label : String
  maxTrackCountToScrobble : Nat
  canLoveSong : Bool
  canLoadSongInfo : Bool
  isReadyForGrantAccess : Bool
deriving DecidableEq, Repr

/-- scrobble-service.js `isScrobblerInArray`: membership test by label
equality (`s.getLabel() === scrobbler.getLabel()`). -/
def isScrobblerInArray (scrobbler : Scrobbler) (a : List Scrobbler) : Bool :=
  a.any fun s => s.label == scrobbler.label

/-- scrobble-service.js `bindScrobbler`: push the scrobbler unless a
label-equal one is already bound. -/
def bindScrobbler (bound : List Scrobbler) (scrobbler : Scrobbler) : List Scrobbler :=
  if isScrobblerInArray scrobbler bound then bound else bound ++ [scrobbler]

/-- JavaScript `Array.prototype.indexOf`: index of the first element equal
(object identity) to `s`, or -1 when absent. -/
def jsIndexOf (a : List Scrobbler) (s : Scrobbler) : Int :=
  match a.findIdx? fun t => t == s with
  | some i => (i : Int)
  | none => -1

/-- JavaScript `Array.prototype.splice(i, 1)`: a negative index counts from
the end (clamped at 0), then one element at that position is removed. -/
def spliceRemoveOne (a : List α) (i : Int) : List α :=
  let start : Nat := if i < 0 then ((a.length : Int) + i).toNat else min i.toNat a.length
  a.eraseIdx start

/-- Observable outcome of `unbindScrobbler`: either the splice branch ran
(console.log "Unbind ...") or the not-bound branch ran
(console.error "... is not bound"). -/
inductive UnbindOutcome where
  | removed
  | notBound
deriving DecidableEq, Repr

/-- scrobble-service.js `unbindScrobbler`: if a label-equal scrobbler is
bound, splice at `boundScrobblers.indexOf(scrobbler)` (identity lookup,
possibly -1); otherwise report the not-bound condition and leave the set
unchanged. -/
def unbindScrobbler (bound : List Scrobbler) (scrobbler : Scrobbler) :
    List Scrobbler × UnbindOutcome :=
  if isScrobblerInArray scrobbler bound then
    (spliceRemoveOne bound (jsIndexOf bound scrobbler), UnbindOutcome.removed)
  else
    (bound, UnbindOutcome.notBound)

/-- scrobble-service.js `bindAllScrobblers`: for each registered scrobbler
try `getSession()` (its success is the boolean `getSessionOk`); on success
`bindScrobbler`, on failure only warn and continue.  Returns the final
bound list. -/
def bindAllScrobblers (getSessionOk : Scrobbler → Bool) (registered : List Scrobbler)
    (bound : List Scrobbler) : List Scrobbler :=
  match registered with
  | [] => bound
  | s :: rest =>
    if getSessionOk s then bindAllScrobblers getSessionOk rest (bindScrobbler bound s)
    else bindAllScrobblers getSessionOk rest bound

/-- The `new Error(...)` thrown by `processErrorResult` on a result value
outside the two error constants. -/
inductive EngineError where
  | invalidResult (result : ServiceCallResult)
deriving DecidableEq, Repr

/-- scrobble-service.js `processErrorResult`: reject non-error results,
on ERROR_AUTH unbind the scrobbler unless it is ready for grant access,
and forward the original result.  The bound list is threaded explicitly. -/
def processErrorResult (bound : List Scrobbler) (scrobbler : Scrobbler)
    (result : ServiceCallResult) :
    Except EngineError (ServiceCallResult × List Scrobbler) :=
  let isOtherError : Bool := result == ServiceCallResult.ERROR_OTHER
  let isAuthError : Bool := result == ServiceCallResult.ERROR_AUTH
  if !(isOtherError || isAuthError) then
    Except.error (EngineError.invalidResult result)
  else if isAuthError && !scrobbler.isReadyForGrantAccess then
    Except.ok (result, (unbindScrobbler bound scrobbler).1)
  else
    Except.ok (result, bound)

/-- The value a dispatched slot settles to: the fulfilled result, or (for a
rejected call) the rejection reason that `processErrorResult` forwards. -/
def resultOf (outcome : Except ServiceCallResult ServiceCallResult) : ServiceCallResult :=
  match outcome with
  | Except.ok r => r
  | Except.error r => r

/-- The common body of `sendNowPlaying`, `scrobble` and `toggleLove` in
scrobble-service.js: `Promise.all(snapshot.map(s => call(s).catch(r =>
processErrorResult(s, r))))`.  `snapshot` is the list the `.map` ran over
(taken synchronously at dispatch start); `bound` is the mutable bound list,
threaded through `processErrorResult`. -/
def dispatchAll (call : Scrobbler → Except ServiceCallResult ServiceCallResult)
    (snapshot : List Scrobbler) (bound : List Scrobbler) :
    Except EngineError (List ServiceCallResult × List Scrobbler) :=
  match snapshot with
  | [] => Except.ok ([], bound)
  | s :: rest =>
    let step : Except EngineError (ServiceCallResult × List Scrobbler) :=
      match call s with
      | Except.ok r => Except.ok (r, bound)
      | Except.error r => processErrorResult bound s r
    match step with
    | Except.error e => Except.error e
    | Except.ok (r, bound1) =>
      match dispatchAll call rest bound1 with
      | Except.error e => Except.error e
      | Except.ok (rs, bound2) => Except.ok (r :: rs, bound2)

/-- scrobble-service.js `sendNowPlaying`: dispatch over the bound list. -/
def sendNowPlaying (call : Scrobbler → Except ServiceCallResult ServiceCallResult)
    (bound : List Scrobbler) :
    Except EngineError (List ServiceCallResult × List Scrobbler) :=
  dispatchAll call bound bound

/-- scrobble-service.js `scrobble`: dispatch over the bound list. -/
def scrobble (call : Scrobbler → Except ServiceCallResult ServiceCallResult)
    (bound : List Scrobbler) :
    Except EngineError (List ServiceCallResult × List Scrobbler) :=
  dispatchAll call bound bound

/-- scrobble-service.js `toggleLove`: dispatch over the REGISTERED
scrobblers filtered by `canLoveSong` (the source does not restrict to the
bound list). -/
def toggleLove (call : Scrobbler → Except ServiceCallResult ServiceCallResult)
    (registered : List Scrobbler) (bound : List Scrobbler) :
    Except EngineError (List ServiceCallResult × List Scrobbler) :=
  dispatchAll call (registered.filter fun s => s.canLoveSong) bound

/-- JavaScript `Promise.all`: fulfills with the list of values when every
element fulfills, rejects with a rejection reason otherwise (modelled in
list order). -/
def promiseAll {ε α : Type} : List (Except ε α) → Except ε (List α)
  | [] => Except.ok []
  | x :: xs =>
    match x with
    | Except.error e => Except.error e
    | Except.ok v =>
      match promiseAll xs with
      | Except.error e => Except.error e
      | Except.ok vs => Except.ok (v :: vs)

/-- scrobble-service.js `getSongInfo`: filter the registered scrobblers by
`canLoadSongInfo`, call each with the per-scrobbler fault caught and
converted to null (`none`), and join with `Promise.all`. -/
def getSongInfo {ε α : Type} (call : Scrobbler → Except ε α) (registered : List Scrobbler) :
    Except ε (List (Option α)) :=
  let scrobblers := registered.filter fun s => s.canLoadSongInfo
  promiseAll (scrobblers.map fun s =>
    match call s with
    | Except.ok info => Except.ok (some info)
    | Except.error _ => Except.ok none)

/-- Modelled from the spec: `splitArrayToChunks` lives in util/util.js, which
is not among the provided source files.  Spec 4.3: "Given an ordered batch of
N songs and a backend's maxChunkSize M, partition into ceil(N/M) contiguous
chunks preserving order; the last chunk may be shorter than M." -/
def splitArrayToChunks (a : List α) (m : Nat) : List (List α) :=
  match a with
  | [] => []
  | x :: rest =>
    if hm : m = 0 then []
    else (x :: rest).take m :: splitArrayToChunks ((x :: rest).drop m) m
termination_by a.length
decreasing_by
  simp only [List.length_drop, List.length_cons]
  omega

/-- The failed local indices a chunk request settles to: a fulfilled
`scrobbleBatchWithLimit` contributes none, a rejected one contributes its
rejection reason (the ordered list of local failed indices). -/
def failedIndices (outcome : Except (List Nat) Unit) : List Nat :=
  match outcome with
  | Except.ok _ => []
  | Except.error songIndices => songIndices

/-- base-scrobbler.js `BaseScrobbler.scrobbleBatch`: split the batch into
chunks of `getMaxTrackCountToScrobble()` songs, fire one
`scrobbleBatchWithLimit` per chunk with the rejection caught and each local
failed index remapped by `chunkIndex * maxChunkSize`, join with
`Promise.all`, and fulfill with the collected global failed indices.
`chunkCall` is the backend's `scrobbleBatchWithLimit`, which per the
backend contract rejects with the list of local failed indices. -/
def scrobbleBatchBackend (chunkCall : List α → Except (List Nat) Unit)
    (songInfoArray : List α) (maxChunkSize : Nat) : Except (List Nat) (List Nat) :=
  let chunks := splitArrayToChunks songInfoArray maxChunkSize
  let requestResults : List (Except (List Nat) (List Nat)) :=
    chunks.mapIdx fun chunkIndex chunk =>
      match chunkCall chunk with
      | Except.ok _ => Except.ok []
      | Except.error songIndices =>
        Except.ok (songIndices.map fun songIndex => songIndex + chunkIndex * maxChunkSize)
  match promiseAll requestResults with
  | Except.error e => Except.error e
  | Except.ok collected => Except.ok collected.flatten

/-- scrobble-batch-result.js `ScrobbleBatchError`: an error value carrying a
message and `errorData`, a mapping from scrobbler id to failed song indices
(modelled as an association list). -/
structure ScrobbleBatchError where
  message : String
  errorData : List (String × List Nat)
deriving DecidableEq, Repr

/-- scrobble-batch-result.js `ScrobbleBatchError.setFailedSongIndices`:
`this.errorData[scrobblerId] = songIndices` (overwrite the key). -/
def setFailedSongIndices (e : ScrobbleBatchError) (scrobblerId : String)
    (songIndices : List Nat) : ScrobbleBatchError :=
  { e with errorData :=
      (e.errorData.filter fun p => p.1 ≠ scrobblerId) ++ [(scrobblerId, songIndices)] }

/-- The ways the promise returned by the engine's `scrobbleBatch` can
reject: a forwarded pipeline fault, or the TypeError that
`for (const scrobblerId of erroredScrobbles)` raises (iterating a plain
object as if it were iterable). -/
inductive BatchReject where
  | forwarded (msg : String)
  | typeError
deriving DecidableEq, Repr

/-- The arrow function the engine's `scrobbleBatch` maps every bound
scrobbler to: `scrobbler.scrobbleBatch(songs).catch(trackIndices =>
erroredScrobbles[id] = trackIndices)`.  The catch handler fulfills with
undefined (`none`) and records the id with the rejection reason. -/
def batchSlot (backendBatch : Scrobbler → Except (List Nat) (List Nat))
    (scrobbler : Scrobbler) :
    Except BatchReject (Option (List Nat)) × List (String × List Nat) :=
  match backendBatch scrobbler with
  | Except.ok value => (Except.ok (some value), [])
  | Except.error trackIndices => (Except.ok none, [(scrobbler.id, trackIndices)])

/-- scrobble-service.js `scrobbleBatch`: map every bound scrobbler through
`batchSlot` (the recorded `erroredScrobbles` entries are collected beside
the promise).  Then `Promise.all(promises).catch(err => ...)`: when no
errored scrobbler was recorded the fault is rethrown, otherwise the
`for...of` over the plain object `erroredScrobbles` raises a TypeError
before any `ScrobbleBatchError` can be returned. -/
def scrobbleBatchEngine (backendBatch : Scrobbler → Except (List Nat) (List Nat))
    (bound : List Scrobbler) : Except BatchReject (List (Option (List Nat))) :=
  let mapped := bound.map (batchSlot backendBatch)
  let erroredScrobbles : List (String × List Nat) := (mapped.map Prod.snd).flatten
  match promiseAll (mapped.map Prod.fst) with
  | Except.ok values => Except.ok values
  | Except.error err =>
    if erroredScrobbles.length = 0 then Except.error err
    else Except.error BatchReject.typeError

/-- Concrete scrobbler instances used as inputs of witnesses and
counterexamples (capability values are illustrative). -/
def sLastFm : Scrobbler := ⟨"lastfm", "Last.fm", 50, true, true, false⟩

/-- Concrete scrobbler instance used as input of witnesses. -/
def sLibreFm : Scrobbler := ⟨"librefm", "Libre.fm", 50, true, true, false⟩

/-- Concrete scrobbler instance used as input of witnesses
(chunk size 3, no love/song-info capability). -/
def sListenBrainz : Scrobbler := ⟨"listenbrainz", "ListenBrainz", 3, false, false, false⟩

theorem promiseAll_map_ok {ε α β : Type} (l : List β) (f : β → α) :
    promiseAll (l.map fun b => (Except.ok (f b) : Except ε α)) = Except.ok (l.map f) := by
  induction l with
  | nil => rfl
  | cons x xs ih => simp [promiseAll, ih]

theorem getSongInfo_eq {ε α : Type} (call : Scrobbler → Except ε α)
    (registered : List Scrobbler) :
    getSongInfo call registered =
      Except.ok ((registered.filter fun s => s.canLoadSongInfo).map
        fun s => (call s).toOption) := by
  unfold getSongInfo
  dsimp only
  have hmap : ((registered.filter fun s => s.canLoadSongInfo).map fun s =>
      match call s with
      | Except.ok info => (Except.ok (some info) : Except ε (Option α))
      | Except.error _ => Except.ok none) =
      ((registered.filter fun s => s.canLoadSongInfo).map fun s =>
        (Except.ok ((call s).toOption) : Except ε (Option α))) := by
    apply List.map_congr_left
    intro s _
    cases call s <;> rfl
  rw [hmap, promiseAll_map_ok]

theorem processErrorResult_forwards (bound : List Scrobbler) (s : Scrobbler)
    (r : ServiceCallResult)
    (h : r = ServiceCallResult.ERROR_AUTH ∨ r = ServiceCallResult.ERROR_OTHER) :
    ∃ bound2, processErrorResult bound s r = Except.ok (r, bound2) := by
  rcases h with h | h <;> subst h
  · by_cases hb : s.isReadyForGrantAccess
    · exact ⟨bound, by simp [processErrorResult, hb]⟩
    · exact ⟨(unbindScrobbler bound s).1, by simp [processErrorResult, hb]⟩
  · exact ⟨bound, by simp [processErrorResult]⟩

theorem dispatchAll_spec (call : Scrobbler → Except ServiceCallResult ServiceCallResult)
    (snapshot : List Scrobbler) :
    ∀ bound : List Scrobbler,
      (∀ s ∈ snapshot, ∀ r, call s = Except.error r →
        r = ServiceCallResult.ERROR_AUTH ∨ r = ServiceCallResult.ERROR_OTHER) →
      ∃ bound2, dispatchAll call snapshot bound =
        Except.ok (snapshot.map fun s => resultOf (call s), bound2) := by
  induction snapshot with
  | nil => exact fun bound _ => ⟨bound, rfl⟩
  | cons s rest ih =>
    intro bound h
    cases hc : call s with
    | ok r =>
      obtain ⟨bound2, hrest⟩ := ih bound fun t ht => h t (List.mem_cons_of_mem s ht)
      exact ⟨bound2, by simp [dispatchAll, hc, hrest, resultOf]⟩
    | error r =>
      have hr := h s (List.mem_cons_self s rest) r hc
      obtain ⟨bound1, hp⟩ := processErrorResult_forwards bound s r hr
      obtain ⟨bound2, hrest⟩ := ih bound1 fun t ht => h t (List.mem_cons_of_mem s ht)
      exact ⟨bound2, by simp [dispatchAll, hc, hp, hrest, resultOf]⟩

/-- Concrete per-backend call where the lastfm backend fails with
ERROR_OTHER and every other backend succeeds. -/
def cCallMixed : Scrobbler → Except ServiceCallResult ServiceCallResult :=
  fun s =>
    if s.id = "lastfm" then Except.error ServiceCallResult.ERROR_OTHER
    else Except.ok ServiceCallResult.RESULT_OK

/-- Claim C1: for every list of K bound backends and every per-backend call
whose rejection reasons obey the backend contract (a call fails only with
ERROR_AUTH or ERROR_OTHER), sendNowPlaying and scrobble settle with exactly
K results in dispatch (input) order, slot i holding the outcome of backend i
(the fulfilled result, or the forwarded rejection reason), no matter how
many of the K calls fail. -/
theorem claim_C1_settle_all
    (call : Scrobbler → Except ServiceCallResult ServiceCallResult)
    (bound : List Scrobbler)
    (hcontract : ∀ s ∈ bound, ∀ r, call s = Except.error r →
      r = ServiceCallResult.ERROR_AUTH ∨ r = ServiceCallResult.ERROR_OTHER) :
    ∃ bound1 bound2,
      sendNowPlaying call bound =
        Except.ok (bound.map fun s => resultOf (call s), bound1) ∧
      scrobble call bound =
        Except.ok (bound.map fun s => resultOf (call s), bound2) ∧
      (bound.map fun s => resultOf (call s)).length = bound.length := by
  obtain ⟨b1, h1⟩ := dispatchAll_spec call bound bound hcontract
  exact ⟨b1, b1, h1, h1, by simp⟩

/-- Witness for claim C1 at two bound backends with the first one failing. -/
theorem claim_C1_settle_all_witness :
    ∃ bound1 bound2,
      sendNowPlaying cCallMixed [sLastFm, sLibreFm] =
        Except.ok ([ServiceCallResult.ERROR_OTHER, ServiceCallResult.RESULT_OK], bound1) ∧
      scrobble cCallMixed [sLastFm, sLibreFm] =
        Except.ok ([ServiceCallResult.ERROR_OTHER, ServiceCallResult.RESULT_OK], bound2) := by
  have hc : ∀ s ∈ [sLastFm, sLibreFm], ∀ r, cCallMixed s = Except.error r →
      r = ServiceCallResult.ERROR_AUTH ∨ r = ServiceCallResult.ERROR_OTHER := by
    intro s hs r hr
    rcases List.mem_pair.mp hs with h | h <;> subst h <;>
      simp [cCallMixed, sLastFm, sLibreFm] at hr
    simp [hr]
  obtain ⟨b1, b2, h1, h2, -⟩ := claim_C1_settle_all cCallMixed [sLastFm, sLibreFm] hc
  have hmap : (List.map (fun s => resultOf (cCallMixed s)) [sLastFm, sLibreFm]) =
      [ServiceCallResult.ERROR_OTHER, ServiceCallResult.RESULT_OK] := by decide
  rw [hmap] at h1 h2
  exact ⟨b1, b2, h1, h2⟩

/-- Claim C5 counterexample: with an EMPTY bound set and one registered
lovable backend, toggleLove still issues one call and settles with one
result — the source filters the registered list by canLoveSong, so a
registered-but-unbound backend IS called, contradicting the claim that
love-toggle dispatches within the Bound Set. -/
theorem claim_C5_cex :
    sLastFm ∉ ([] : List Scrobbler) ∧
    toggleLove (fun _ => Except.ok ServiceCallResult.RESULT_OK) [sLastFm] [] =
      Except.ok ([ServiceCallResult.RESULT_OK], []) := by
  exact ⟨by simp, by rfl⟩

/-- Claim C5 (amended): now-playing and scrobble dispatch to the bound
list; song-info lookup dispatches to the registered list filtered by
canLoadSongInfo; love-toggle dispatches to the REGISTERED list filtered by
canLoveSong (binding state is not consulted). -/
theorem claim_C5_dispatch_subsets {ε α : Type}
    (call : Scrobbler → Except ServiceCallResult ServiceCallResult)
    (infoCall : Scrobbler → Except ε α)
    (registered bound : List Scrobbler)
    (hbound : ∀ s ∈ bound, ∀ r, call s = Except.error r →
      r = ServiceCallResult.ERROR_AUTH ∨ r = ServiceCallResult.ERROR_OTHER)
    (hlove : ∀ s ∈ registered.filter (fun s => s.canLoveSong), ∀ r,
      call s = Except.error r →
      r = ServiceCallResult.ERROR_AUTH ∨ r = ServiceCallResult.ERROR_OTHER) :
    (∃ b1, sendNowPlaying call bound =
      Except.ok (bound.map fun s => resultOf (call s), b1)) ∧
    (∃ b2, scrobble call bound =
      Except.ok (bound.map fun s => resultOf (call s), b2)) ∧
    (∃ b3, toggleLove call registered bound =
      Except.ok ((registered.filter fun s => s.canLoveSong).map
        fun s => resultOf (call s), b3)) ∧
    getSongInfo infoCall registered =
      Except.ok ((registered.filter fun s => s.canLoadSongInfo).map
        fun s => (infoCall s).toOption) := by
  obtain ⟨b1, h1⟩ := dispatchAll_spec call bound bound hbound
  obtain ⟨b3, h3⟩ :=
    dispatchAll_spec call (registered.filter fun s => s.canLoveSong) bound hlove
  exact ⟨⟨b1, h1⟩, ⟨b1, h1⟩, ⟨b3, h3⟩, getSongInfo_eq infoCall registered⟩

/-- Witness for claim C5 (amended): registered = lastfm, listenbrainz,
bound = listenbrainz only; every call succeeds; toggleLove and getSongInfo
target exactly the capable registered backends (lastfm), scrobble targets
the bound one. -/
theorem claim_C5_dispatch_subsets_witness :
    (∃ b2, scrobble (fun _ => Except.ok ServiceCallResult.RESULT_OK) [sListenBrainz] =
      Except.ok ([ServiceCallResult.RESULT_OK], b2)) ∧
    (∃ b3, toggleLove (fun _ => Except.ok ServiceCallResult.RESULT_OK)
        [sLastFm, sListenBrainz] [sListenBrainz] =
      Except.ok ([ServiceCallResult.RESULT_OK], b3)) ∧
    getSongInfo (fun _ => (Except.ok 7 : Except String Nat)) [sLastFm, sListenBrainz] =
      Except.ok [some 7] := by
  have h := claim_C5_dispatch_subsets
    (fun _ => Except.ok ServiceCallResult.RESULT_OK)
    (fun _ => (Except.ok 7 : Except String Nat))
    [sLastFm, sListenBrainz] [sListenBrainz]
    (by intro s hs r hr; simp at hr)
    (by intro s hs r hr; simp at hr)
  obtain ⟨-, ⟨b2, h2⟩, ⟨b3, h3⟩, h4⟩ := h
  exact ⟨⟨b2, h2⟩, ⟨b3, h3⟩, h4.trans (by rfl)⟩

/-- Claim C8: song-info lookup always resolves — each per-backend fault is
caught at the call boundary and becomes null (`none`) in that backend's
slot, the lookup yields one entry per capable backend, and a raw backend
fault never propagates out of getSongInfo. -/
theorem claim_C8_songinfo_fault_conversion {ε α : Type}
    (call : Scrobbler → Except ε α) (registered : List Scrobbler) :
    getSongInfo call registered =
      Except.ok ((registered.filter fun s => s.canLoadSongInfo).map
        fun s => (call s).toOption) ∧
    ∀ s e, call s = Except.error e → (call s).toOption = none := by
  refine ⟨getSongInfo_eq call registered, fun s e he => ?_⟩
  rw [he]
  rfl

/-- Concrete song-info call where the lastfm backend faults and every other
backend yields the value 7. -/
def cInfoCall : Scrobbler → Except String Nat :=
  fun s => if s.id = "lastfm" then Except.error "network" else Except.ok 7

/-- Witness for claim C8: out of three registered backends two are capable;
the faulting one contributes null, the lookup still resolves. -/
theorem claim_C8_songinfo_fault_conversion_witness :
    getSongInfo cInfoCall [sLastFm, sLibreFm, sListenBrainz] =
      Except.ok [none, some 7] ∧
    cInfoCall sLastFm = Except.error "network" := by
  have h := claim_C8_songinfo_fault_conversion cInfoCall [sLastFm, sLibreFm, sListenBrainz]
  exact ⟨h.1.trans (by rfl), by rfl⟩

theorem splitArrayToChunks_ne_nil {α : Type} (x : α) (rest : List α) (m : Nat)
    (hm : m ≠ 0) :
    splitArrayToChunks (x :: rest) m =
      (x :: rest).take m :: splitArrayToChunks ((x :: rest).drop m) m := by
  rw [splitArrayToChunks]
  simp [hm]

theorem splitArrayToChunks_flatten {α : Type} (a : List α) (m : Nat) (hm : m ≠ 0) :
    (splitArrayToChunks a m).flatten = a :=
  match a with
  | [] => by
    rw [splitArrayToChunks]
    simp
  | x :: rest => by
    rw [splitArrayToChunks_ne_nil x rest m hm, List.flatten_cons,
        splitArrayToChunks_flatten ((x :: rest).drop m) m hm, List.take_append_drop]
termination_by a.length
decreasing_by
  simp only [List.length_drop, List.length_cons]
  omega

theorem splitArrayToChunks_length {α : Type} (a : List α) (m : Nat) (hm : m ≠ 0) :
    (splitArrayToChunks a m).length = (a.length + m - 1) / m :=
  match a with
  | [] => by
    rw [splitArrayToChunks]
    simp only [List.length_nil]
    rw [Nat.div_eq_of_lt (by omega)]
  | x :: rest => by
    rw [splitArrayToChunks_ne_nil x rest m hm, List.length_cons,
        splitArrayToChunks_length ((x :: rest).drop m) m hm]
    simp only [List.length_drop, List.length_cons]
    have hsplit : rest.length + 1 + m - 1 = (rest.length + 1 - 1) + m := by omega
    rw [hsplit, Nat.add_div_right _ (Nat.pos_of_ne_zero hm)]
    have key : (rest.length + 1 - m + m - 1) / m = (rest.length + 1 - 1) / m := by
      by_cases hmn : m ≤ rest.length + 1
      · congr 1
        omega
      · rw [Nat.div_eq_of_lt (by omega), Nat.div_eq_of_lt (by omega)]
    rw [key]
termination_by a.length
decreasing_by
  simp only [List.length_drop, List.length_cons]
  omega

theorem splitArrayToChunks_getElem {α : Type} (a : List α) (m : Nat) (hm : m ≠ 0)
    (k : Nat) (hk : k < (splitArrayToChunks a m).length) :
    (splitArrayToChunks a m)[k] = (a.drop (k * m)).take m :=
  match a, k with
  | [], k => by
    rw [splitArrayToChunks] at hk
    simp at hk
  | x :: rest, 0 => by
    simp only [splitArrayToChunks_ne_nil x rest m hm, List.getElem_cons_zero]
    simp
  | x :: rest, k + 1 => by
    rw [splitArrayToChunks_ne_nil x rest m hm] at hk
    simp only [List.length_cons, Nat.add_lt_add_iff_right] at hk
    simp only [splitArrayToChunks_ne_nil x rest m hm, List.getElem_cons_succ]
    rw [splitArrayToChunks_getElem ((x :: rest).drop m) m hm k hk, List.drop_drop]
    have harith : m + k * m = (k + 1) * m := by ring
    rw [harith]
termination_by a.length
decreasing_by
  simp only [List.length_drop, List.length_cons]
  omega

theorem mapIdx_congr {α β : Type} :
    ∀ (l : List α) (f g : Nat → α → β), (∀ k c, f k c = g k c) →
      l.mapIdx f = l.mapIdx g
  | [], _, _, _ => rfl
  | x :: xs, f, g, h => by
    rw [List.mapIdx_cons, List.mapIdx_cons, h 0 x,
        mapIdx_congr xs _ _ fun k c => h (k + 1) c]

theorem mapIdx_ok_promiseAll {ε α β : Type} :
    ∀ (l : List α) (g : Nat → α → β),
      promiseAll (l.mapIdx fun k c => (Except.ok (g k c) : Except ε β)) =
        Except.ok (l.mapIdx g)
  | [], _ => rfl
  | x :: xs, g => by
    rw [List.mapIdx_cons, List.mapIdx_cons]
    simp [promiseAll, mapIdx_ok_promiseAll xs fun k c => g (k + 1) c]

theorem mapIdx_getElem {α β : Type} :
    ∀ (l : List α) (f : Nat → α → β) (k : Nat) (hk : k < l.length)
      (hk2 : k < (l.mapIdx f).length), (l.mapIdx f)[k] = f k l[k]
  | x :: xs, f, 0, _, _ => by
    simp only [List.mapIdx_cons, List.getElem_cons_zero]
  | x :: xs, f, k + 1, hk, hk2 => by
    rw [List.mapIdx_cons] at hk2
    simp only [List.mapIdx_cons, List.getElem_cons_succ]
    exact mapIdx_getElem xs (fun i => f (i + 1)) k (by simpa using hk)
      (by simpa using hk2)

/-- Evaluation of the backend batch call: it fulfills with the
chunk-indexed remapping of each chunk's failed local indices. -/
theorem scrobbleBatchBackend_eq {α : Type} (chunkCall : List α → Except (List Nat) Unit)
    (songs : List α) (m : Nat) :
    scrobbleBatchBackend chunkCall songs m =
      Except.ok (((splitArrayToChunks songs m).mapIdx fun k c =>
        (failedIndices (chunkCall c)).map fun i => i + k * m).flatten) := by
  unfold scrobbleBatchBackend
  dsimp only
  have h1 : ((splitArrayToChunks songs m).mapIdx fun chunkIndex chunk =>
      match chunkCall chunk with
      | Except.ok _ => (Except.ok [] : Except (List Nat) (List Nat))
      | Except.error songIndices =>
        Except.ok (songIndices.map fun songIndex => songIndex + chunkIndex * m)) =
      ((splitArrayToChunks songs m).mapIdx fun k c =>
        (Except.ok ((failedIndices (chunkCall c)).map fun i => i + k * m) :
          Except (List Nat) (List Nat))) := by
    apply mapIdx_congr
    intro k c
    cases hc : chunkCall c <;> simp [failedIndices]
  rw [h1, mapIdx_ok_promiseAll]

/-- The first component of a batch slot is always a fulfilled promise: the
catch handler converts every rejection into undefined (`none`). -/
theorem batchSlot_fst (backendBatch : Scrobbler → Except (List Nat) (List Nat))
    (s : Scrobbler) :
    (batchSlot backendBatch s).1 = Except.ok ((backendBatch s).toOption) := by
  cases h : backendBatch s <;> simp [batchSlot, h, Except.toOption]

/-- Evaluation of the engine's batch dispatch: because every slot promise
fulfills, `Promise.all` fulfills, the outer catch never runs, and the call
resolves with one slot per bound scrobbler — `some` of a fulfilled backend
value, `none` for a rejected backend. -/
theorem scrobbleBatchEngine_eq (backendBatch : Scrobbler → Except (List Nat) (List Nat))
    (bound : List Scrobbler) :
    scrobbleBatchEngine backendBatch bound =
      Except.ok (bound.map fun s => (backendBatch s).toOption) := by
  unfold scrobbleBatchEngine
  dsimp only
  rw [List.map_map]
  have hmap : bound.map (Prod.fst ∘ batchSlot backendBatch) =
      bound.map fun s => (Except.ok ((backendBatch s).toOption) :
        Except BatchReject (Option (List Nat))) :=
    List.map_congr_left fun s _ => batchSlot_fst backendBatch s
  rw [hmap, promiseAll_map_ok bound fun s => (backendBatch s).toOption]

/-- Claim C4: for an ordered batch of N songs and chunk size M > 0, the
backend batch call partitions the batch into ceil(N/M) contiguous
order-preserving chunks (chunk k has min M (N - k*M) songs, so only the
last may be shorter than M), and every local failed index i reported by
chunk k appears as the global index k*M + i in the backend's failure
list. -/
theorem claim_C4_chunking {α : Type} (chunkCall : List α → Except (List Nat) Unit)
    (songInfoArray : List α) (M : Nat) (hM : 0 < M) :
    (splitArrayToChunks songInfoArray M).length = (songInfoArray.length + M - 1) / M ∧
    (splitArrayToChunks songInfoArray M).flatten = songInfoArray ∧
    (∀ k (hk : k < (splitArrayToChunks songInfoArray M).length),
      ((splitArrayToChunks songInfoArray M)[k]).length =
        min M (songInfoArray.length - k * M)) ∧
    ∃ l, scrobbleBatchBackend chunkCall songInfoArray M = Except.ok l ∧
      ∀ k (hk : k < (splitArrayToChunks songInfoArray M).length) (i : Nat),
        i ∈ failedIndices (chunkCall (splitArrayToChunks songInfoArray M)[k]) →
          k * M + i ∈ l := by
  have hm : M ≠ 0 := hM.ne'
  refine ⟨splitArrayToChunks_length _ _ hm, splitArrayToChunks_flatten _ _ hm, ?_, ?_⟩
  · intro k hk
    rw [splitArrayToChunks_getElem _ _ hm k hk]
    simp
  · refine ⟨_, scrobbleBatchBackend_eq chunkCall songInfoArray M, ?_⟩
    intro k hk i hi
    rw [List.mem_flatten]
    have hk2 : k < ((splitArrayToChunks songInfoArray M).mapIdx fun k c =>
        (failedIndices (chunkCall c)).map fun i => i + k * M).length := by
      simpa using hk
    refine ⟨(failedIndices (chunkCall (splitArrayToChunks songInfoArray M)[k])).map
      (fun i => i + k * M), ?_, ?_⟩
    · have hget := mapIdx_getElem (splitArrayToChunks songInfoArray M)
        (fun k c => (failedIndices (chunkCall c)).map fun i => i + k * M) k hk hk2
      rw [← hget]
      exact List.getElem_mem hk2
    · have hcomm : k * M + i = i + k * M := Nat.add_comm _ _
      rw [hcomm]
      exact List.mem_map_of_mem (fun i => i + k * M) hi

/-- The chunk call used in witnesses: the chunk [3, 4, 5] rejects with
local failed index 1, every other chunk fulfills. -/
def cChunkCall : List Nat → Except (List Nat) Unit :=
  fun chunk => if chunk = [3, 4, 5] then Except.error [1] else Except.ok ()

/-- Witness for claim C4 at the spec's scenario 2: 7 songs, chunk size 3,
chunk 1 fails at local index 1, giving global index 1*3+1 = 4. -/
theorem claim_C4_chunking_witness :
    (splitArrayToChunks ([0, 1, 2, 3, 4, 5, 6] : List Nat) 3).length = 3 ∧
    ∃ l, scrobbleBatchBackend cChunkCall [0, 1, 2, 3, 4, 5, 6] 3 = Except.ok l ∧
      1 * 3 + 1 ∈ l := by
  obtain ⟨hlen, -, -, l, hl, hmem⟩ :=
    claim_C4_chunking cChunkCall ([0, 1, 2, 3, 4, 5, 6] : List Nat) 3 (by omega)
  have hk3 : 1 < (splitArrayToChunks ([0, 1, 2, 3, 4, 5, 6] : List Nat) 3).length := by
    rw [hlen]
    decide
  have hget := splitArrayToChunks_getElem ([0, 1, 2, 3, 4, 5, 6] : List Nat) 3
    (by decide) 1 hk3
  have hmem1 : 1 ∈ failedIndices
      (cChunkCall (splitArrayToChunks ([0, 1, 2, 3, 4, 5, 6] : List Nat) 3)[1]) := by
    rw [hget]
    decide
  exact ⟨hlen.trans (by rfl), l, hl, hmem 1 hk3 1 hmem1⟩

/-- Claim C9: the backend-level scrobbleBatch (Batch Chunker) always
fulfills — chunk failures are reported only through its fulfilled value
(empty on total success) — and therefore the rejection handler the engine
attaches to it never runs: the engine's batch dispatch resolves with a
`some` slot for every bound backend. -/
theorem claim_C9_batch_chunker_always_fulfills {α : Type}
    (chunkCall : List α → Except (List Nat) Unit) (songs : List α) (m : Nat) :
    (∃ l, scrobbleBatchBackend chunkCall songs m = Except.ok l) ∧
    ((∀ chunk ∈ splitArrayToChunks songs m, ∃ u, chunkCall chunk = Except.ok u) →
      scrobbleBatchBackend chunkCall songs m = Except.ok []) ∧
    ∀ (bound : List Scrobbler)
      (chunkCalls : Scrobbler → List α → Except (List Nat) Unit),
      scrobbleBatchEngine (fun s => scrobbleBatchBackend (chunkCalls s) songs m) bound =
        Except.ok (bound.map fun s =>
          some (((splitArrayToChunks songs m).mapIdx fun k c =>
            (failedIndices (chunkCalls s c)).map fun i => i + k * m).flatten)) := by
  refine ⟨⟨_, scrobbleBatchBackend_eq chunkCall songs m⟩, ?_, ?_⟩
  · intro hall
    rw [scrobbleBatchBackend_eq]
    congr 1
    rw [List.flatten_eq_nil_iff]
    intro x hx
    obtain ⟨k, hk, hxk⟩ := List.mem_iff_getElem.mp hx
    have hk2 : k < (splitArrayToChunks songs m).length := by simpa using hk
    rw [mapIdx_getElem _ _ k hk2 hk] at hxk
    obtain ⟨u, hu⟩ := hall (splitArrayToChunks songs m)[k] (List.getElem_mem hk2)
    rw [hu] at hxk
    simp [failedIndices] at hxk
    exact hxk
  · intro bound chunkCalls
    rw [scrobbleBatchEngine_eq]
    congr 1
    apply List.map_congr_left
    intro s _
    rw [scrobbleBatchBackend_eq]
    rfl

/-- Witness for claim C9: the failing chunk call from the C4 scenario still
fulfills; the all-success call fulfills with []; the engine resolves with a
`some` slot. -/
theorem claim_C9_batch_chunker_always_fulfills_witness :
    (∃ l, scrobbleBatchBackend cChunkCall [0, 1, 2, 3, 4, 5, 6] 3 = Except.ok l) ∧
    scrobbleBatchBackend (fun _ => (Except.ok () : Except (List Nat) Unit))
      [0, 1, 2, 3, 4, 5, 6] 3 = Except.ok [] ∧
    scrobbleBatchEngine (fun _ => scrobbleBatchBackend cChunkCall [0, 1, 2, 3, 4, 5, 6] 3)
      [sLastFm] = Except.ok [some [4]] := by
  obtain ⟨h1, -, h3⟩ :=
    claim_C9_batch_chunker_always_fulfills cChunkCall ([0, 1, 2, 3, 4, 5, 6] : List Nat) 3
  obtain ⟨-, h2, -⟩ := claim_C9_batch_chunker_always_fulfills
    (fun _ => (Except.ok () : Except (List Nat) Unit)) ([0, 1, 2, 3, 4, 5, 6] : List Nat) 3
  refine ⟨h1, h2 fun chunk _ => ⟨(), rfl⟩, ?_⟩
  have h4 := h3 [sLastFm] fun _ => cChunkCall
  rw [h4]
  simp [splitArrayToChunks, cChunkCall, failedIndices]

/-- Concrete backend batch behavior for the failing input of claim C2: the
lastfm backend reports global failed indices [2, 5] (through its FULFILLED
value, which is how the Batch Chunker communicates failures), the librefm
backend reports none. -/
def cBackendBatch : Scrobbler → Except (List Nat) (List Nat) :=
  fun s => if s.id = "lastfm" then Except.ok [2, 5] else Except.ok []

/-- Claim C2, evaluated at the failing input: although the lastfm backend
reports failed indices [2, 5], the engine's scrobbleBatch RESOLVES with the
raw per-backend slots and never fails with a partial-failure error — the
backend-level call fulfills, the engine's catch handler never records
anything, Promise.all never rejects, and the ScrobbleBatchError
construction (itself broken by the for...of over a plain object) is
unreachable. -/
theorem claim_C2_engine_resolves :
    scrobbleBatchEngine cBackendBatch [sLastFm, sLibreFm] =
      Except.ok [some [2, 5], some []] := by
  rfl

/-- The labels of the scrobblers of a list, in order. -/
def labelsOf (a : List Scrobbler) : List String := a.map fun s => s.label

/-- A mutation request against the Binding Registry: the engine changes the
bound list only through bindScrobbler and unbindScrobbler. -/
inductive RegistryOp where
  | bind (s : Scrobbler)
  | unbind (s : Scrobbler)

/-- Apply one registry operation to the bound list. -/
def applyOp (bound : List Scrobbler) : RegistryOp → List Scrobbler
  | RegistryOp.bind s => bindScrobbler bound s
  | RegistryOp.unbind s => (unbindScrobbler bound s).1

/-- Apply a sequence of registry operations to the bound list. -/
def applyOps (bound : List Scrobbler) (ops : List RegistryOp) : List Scrobbler :=
  ops.foldl applyOp bound

theorem isScrobblerInArray_iff (s : Scrobbler) (a : List Scrobbler) :
    isScrobblerInArray s a = true ↔ ∃ t ∈ a, t.label = s.label := by
  simp [isScrobblerInArray, List.any_eq_true]

theorem bindScrobbler_label_present (bound : List Scrobbler) (s : Scrobbler)
    (h : ∃ t ∈ bound, t.label = s.label) : bindScrobbler bound s = bound := by
  simp [bindScrobbler, (isScrobblerInArray_iff s bound).mpr h]

theorem bindScrobbler_label_absent (bound : List Scrobbler) (s : Scrobbler)
    (h : ¬ ∃ t ∈ bound, t.label = s.label) : bindScrobbler bound s = bound ++ [s] := by
  have hb : isScrobblerInArray s bound = false := by
    cases hb : isScrobblerInArray s bound
    · rfl
    · exact absurd ((isScrobblerInArray_iff s bound).mp hb) h
  simp [bindScrobbler, hb]

theorem unbind_label_absent (bound : List Scrobbler) (s : Scrobbler)
    (h : ¬ ∃ t ∈ bound, t.label = s.label) :
    unbindScrobbler bound s = (bound, UnbindOutcome.notBound) := by
  have hb : isScrobblerInArray s bound = false := by
    cases hb : isScrobblerInArray s bound
    · rfl
    · exact absurd ((isScrobblerInArray_iff s bound).mp hb) h
  simp [unbindScrobbler, hb]

theorem jsIndexOf_of_mem (a : List Scrobbler) (s : Scrobbler) (h : s ∈ a) :
    jsIndexOf a s = (a.indexOf s : Int) := by
  unfold jsIndexOf
  have hdef : (a.findIdx? fun t => t == s) = a.indexOf? s := rfl
  rw [hdef]
  cases hio : a.indexOf? s with
  | none =>
    exfalso
    rw [List.indexOf?_eq_none_iff] at hio
    exact absurd (by simp : (s == s) = true) (by simpa using hio s h)
  | some i =>
    rw [List.indexOf_eq_indexOf?, hio]

/-- When the scrobbler itself (object identity) is in the bound list, the
splice removes its first occurrence. -/
theorem unbind_mem_eq (bound : List Scrobbler) (s : Scrobbler) (h : s ∈ bound) :
    unbindScrobbler bound s = (bound.erase s, UnbindOutcome.removed) := by
  have hin : isScrobblerInArray s bound = true :=
    (isScrobblerInArray_iff s bound).mpr ⟨s, h, rfl⟩
  have hlt : bound.indexOf s < bound.length := List.indexOf_lt_length.mpr h
  simp only [unbindScrobbler, hin, if_true]
  rw [jsIndexOf_of_mem bound s h]
  unfold spliceRemoveOne
  have h0 : ¬ ((bound.indexOf s : Int) < 0) := by omega
  simp only [h0, if_false, Int.toNat_natCast]
  rw [min_eq_left (le_of_lt hlt), List.eraseIdx_indexOf_eq_erase]

/-- When a label-equal scrobbler is bound but the scrobbler itself is not,
`indexOf` yields -1 and `splice(-1, 1)` removes the LAST element of the
bound list. -/
theorem unbind_label_present_not_mem (bound : List Scrobbler) (s : Scrobbler)
    (hlabel : ∃ t ∈ bound, t.label = s.label) (hid : s ∉ bound) :
    unbindScrobbler bound s = (bound.dropLast, UnbindOutcome.removed) := by
  have hin : isScrobblerInArray s bound = true :=
    (isScrobblerInArray_iff s bound).mpr hlabel
  have hne : bound ≠ [] := by
    rintro rfl
    obtain ⟨t, ht, -⟩ := hlabel
    exact absurd ht (List.not_mem_nil t)
  have hpos : 0 < bound.length := List.length_pos.mpr hne
  have hidx : jsIndexOf bound s = -1 := by
    unfold jsIndexOf
    have hnone : (bound.findIdx? fun t => t == s) = none := by
      rw [List.findIdx?_eq_none_iff]
      intro t ht
      rw [beq_eq_false_iff_ne]
      intro he
      exact hid (he ▸ ht)
    rw [hnone]
  simp only [unbindScrobbler, hin, if_true]
  rw [hidx]
  unfold spliceRemoveOne
  have hneg : ((-1 : Int) < 0) := by omega
  simp only [hneg, if_true]
  have hstart : ((bound.length : Int) + (-1)).toNat = bound.length - 1 := by omega
  rw [hstart, ← List.dropLast_eq_eraseIdx (by omega : bound.length - 1 + 1 = bound.length)]

/-- Whatever `unbindScrobbler` returns is a sublist of the input bound
list (the splice removes at most one element). -/
theorem unbind_fst_sublist (bound : List Scrobbler) (s : Scrobbler) :
    (unbindScrobbler bound s).1.Sublist bound := by
  unfold unbindScrobbler
  by_cases hin : isScrobblerInArray s bound
  · simp only [hin, if_true]
    unfold spliceRemoveOne
    exact List.eraseIdx_sublist _ _
  · simp only [hin, if_false]
    exact List.Sublist.refl bound

theorem labelsOf_bind_nodup (bound : List Scrobbler) (s : Scrobbler)
    (h : (labelsOf bound).Nodup) : (labelsOf (bindScrobbler bound s)).Nodup := by
  by_cases hp : ∃ t ∈ bound, t.label = s.label
  · rw [bindScrobbler_label_present bound s hp]
    exact h
  · rw [bindScrobbler_label_absent bound s hp]
    unfold labelsOf at h ⊢
    rw [List.map_append, List.nodup_append]
    refine ⟨h, by simp, ?_⟩
    intro x hx hx2
    simp at hx2
    obtain ⟨t, ht, hteq⟩ := List.mem_map.mp hx
    exact hp ⟨t, ht, by rw [hteq, hx2]⟩

theorem labelsOf_unbind_nodup (bound : List Scrobbler) (s : Scrobbler)
    (h : (labelsOf bound).Nodup) : (labelsOf (unbindScrobbler bound s).1).Nodup := by
  unfold labelsOf at h ⊢
  exact List.Nodup.sublist
    (List.Sublist.map (fun t => t.label) (unbind_fst_sublist bound s)) h

theorem applyOps_nodup :
    ∀ (ops : List RegistryOp) (bound : List Scrobbler),
      (labelsOf bound).Nodup → (labelsOf (applyOps bound ops)).Nodup
  | [], _, h => h
  | op :: rest, bound, h => by
    unfold applyOps
    rw [List.foldl_cons]
    apply applyOps_nodup rest
    cases op with
    | bind s => exact labelsOf_bind_nodup bound s h
    | unbind s => exact labelsOf_unbind_nodup bound s h

/-- Concrete scrobbler with a distinct id but the same label as sLastFm,
used to probe label-based membership. -/
def sLastFmDup : Scrobbler := ⟨"lastfm2", "Last.fm", 50, true, true, false⟩

/-- Concrete scrobbler whose isReadyForGrantAccess query answers true. -/
def sReady : Scrobbler := ⟨"ready", "Ready", 50, false, false, true⟩

/-- Claim C3: processErrorResult removes the scrobbler from the bound list
on ERROR_AUTH when it is not ready for grant access, keeps it bound on
ERROR_AUTH when it is ready, leaves the bound list unchanged on
ERROR_OTHER, fails with the invalid-result protocol error on any other
result value, and forwards the original result unchanged whenever it does
not fail. -/
theorem claim_C3_process_error (bound : List Scrobbler) (s : Scrobbler)
    (r : ServiceCallResult) (hmem : s ∈ bound) (hnodup : (labelsOf bound).Nodup) :
    (r = ServiceCallResult.ERROR_AUTH → s.isReadyForGrantAccess = false →
      processErrorResult bound s r = Except.ok (r, bound.erase s) ∧
        s ∉ bound.erase s) ∧
    (r = ServiceCallResult.ERROR_AUTH → s.isReadyForGrantAccess = true →
      processErrorResult bound s r = Except.ok (r, bound)) ∧
    (r = ServiceCallResult.ERROR_OTHER →
      processErrorResult bound s r = Except.ok (r, bound)) ∧
    (r ≠ ServiceCallResult.ERROR_AUTH → r ≠ ServiceCallResult.ERROR_OTHER →
      processErrorResult bound s r = Except.error (EngineError.invalidResult r)) ∧
    (∀ r2 bound2, processErrorResult bound s r = Except.ok (r2, bound2) → r2 = r) := by
  have hnd : bound.Nodup := List.Nodup.of_map _ hnodup
  refine ⟨?_, ?_, ?_, ?_, ?_⟩
  · rintro rfl hready
    constructor
    · simp [processErrorResult, hready, unbind_mem_eq bound s hmem]
    · intro hin
      exact absurd rfl ((List.Nodup.mem_erase_iff hnd).mp hin).1
  · rintro rfl hready
    simp [processErrorResult, hready]
  · rintro rfl
    simp [processErrorResult]
  · intro h1 h2
    cases r
    · simp [processErrorResult]
    · simp [processErrorResult]
    · exact absurd rfl h1
    · exact absurd rfl h2
  · intro r2 bound2 h
    unfold processErrorResult at h
    dsimp only at h
    split at h
    · exact absurd h (by simp)
    · split at h
      · rw [Except.ok.injEq, Prod.mk.injEq] at h
        exact h.1.symm
      · rw [Except.ok.injEq, Prod.mk.injEq] at h
        exact h.1.symm

/-- Witness for claim C3 at each of its four branches. -/
theorem claim_C3_process_error_witness :
    processErrorResult [sLastFm] sLastFm ServiceCallResult.ERROR_AUTH =
      Except.ok (ServiceCallResult.ERROR_AUTH, []) ∧
    processErrorResult [sReady] sReady ServiceCallResult.ERROR_AUTH =
      Except.ok (ServiceCallResult.ERROR_AUTH, [sReady]) ∧
    processErrorResult [sLastFm] sLastFm ServiceCallResult.ERROR_OTHER =
      Except.ok (ServiceCallResult.ERROR_OTHER, [sLastFm]) ∧
    processErrorResult [sLastFm] sLastFm ServiceCallResult.RESULT_OK =
      Except.error (EngineError.invalidResult ServiceCallResult.RESULT_OK) := by
  obtain ⟨h1, -, h3, h4, -⟩ := claim_C3_process_error [sLastFm] sLastFm
    ServiceCallResult.ERROR_AUTH (by simp) (by decide)
  obtain ⟨-, h2, -, -, -⟩ := claim_C3_process_error [sReady] sReady
    ServiceCallResult.ERROR_AUTH (by simp) (by decide)
  obtain ⟨-, -, h3b, h4b, -⟩ := claim_C3_process_error [sLastFm] sLastFm
    ServiceCallResult.RESULT_OK (by simp) (by decide)
  refine ⟨?_, h2 rfl (by rfl), ?_, h4b (by decide) (by decide)⟩
  · exact ((h1 rfl (by rfl)).1).trans (by rfl)
  · obtain ⟨-, -, h3c, -, -⟩ := claim_C3_process_error [sLastFm] sLastFm
      ServiceCallResult.ERROR_OTHER (by simp) (by decide)
    exact h3c rfl

/-- The accumulator form of bindAllScrobblers: with label-distinct input it
appends exactly the scrobblers whose session acquisition succeeded. -/
theorem bindAllScrobblers_acc (getSessionOk : Scrobbler → Bool) :
    ∀ (registered bound : List Scrobbler),
      (labelsOf (bound ++ registered)).Nodup →
      bindAllScrobblers getSessionOk registered bound =
        bound ++ registered.filter getSessionOk
  | [], bound, _ => by simp [bindAllScrobblers]
  | s :: rest, bound, h => by
    unfold bindAllScrobblers
    by_cases hs : getSessionOk s
    · rw [if_pos hs]
      have hlab : ¬ ∃ t ∈ bound, t.label = s.label := by
        rintro ⟨t, ht, he⟩
        unfold labelsOf at h
        rw [List.map_append] at h
        have hdisj := (List.nodup_append.mp h).2.2
        exact hdisj (List.mem_map_of_mem _ ht) (by rw [he]; simp)
      rw [bindScrobbler_label_absent bound s hlab]
      have h2 : (labelsOf ((bound ++ [s]) ++ rest)).Nodup := by
        unfold labelsOf at h ⊢
        rw [List.append_assoc]
        simpa using h
      rw [bindAllScrobblers_acc getSessionOk rest (bound ++ [s]) h2]
      simp [List.filter_cons, hs, List.append_assoc]
    · rw [if_neg hs]
      have h2 : (labelsOf (bound ++ rest)).Nodup := by
        unfold labelsOf at h ⊢
        exact List.Nodup.sublist
          (List.Sublist.map _ (List.Sublist.append_left
            (List.sublist_cons_self s rest) bound)) h
      rw [bindAllScrobblers_acc getSessionOk rest bound h2]
      simp [List.filter_cons, hs]

/-- Claim C6: from an empty bound list, bindAll consults session
acquisition for every registered scrobbler, skips the failing ones without
aborting, and returns exactly the successfully-acquiring scrobblers (a
subset of the registered list, with no duplicate); moreover binding the
same scrobbler twice is the same as binding it once. -/
theorem claim_C6_bindAll (getSessionOk : Scrobbler → Bool)
    (registered : List Scrobbler) (hnodup : (labelsOf registered).Nodup) :
    bindAllScrobblers getSessionOk registered [] = registered.filter getSessionOk ∧
    (∀ s ∈ bindAllScrobblers getSessionOk registered [], s ∈ registered) ∧
    (labelsOf (bindAllScrobblers getSessionOk registered [])).Nodup ∧
    ∀ (bound : List Scrobbler) (s : Scrobbler),
      bindScrobbler (bindScrobbler bound s) s = bindScrobbler bound s := by
  have hmain : bindAllScrobblers getSessionOk registered [] =
      registered.filter getSessionOk := by
    rw [bindAllScrobblers_acc getSessionOk registered [] (by simpa [labelsOf] using hnodup)]
    simp
  refine ⟨hmain, ?_, ?_, ?_⟩
  · intro s hs
    rw [hmain] at hs
    exact List.mem_of_mem_filter hs
  · rw [hmain]
    unfold labelsOf at hnodup ⊢
    exact List.Nodup.sublist (List.Sublist.map _ (List.filter_sublist registered)) hnodup
  · intro bound s
    by_cases hp : ∃ t ∈ bound, t.label = s.label
    · rw [bindScrobbler_label_present bound s hp, bindScrobbler_label_present bound s hp]
    · rw [bindScrobbler_label_absent bound s hp]
      apply bindScrobbler_label_present
      exact ⟨s, by simp, rfl⟩

/-- Session acquisition used in witnesses: the lastfm session fails, every
other session succeeds. -/
def cSessionOk : Scrobbler → Bool := fun s => s.id != "lastfm"

/-- Witness for claim C6 at the spec's scenario 1: lastfm fails to acquire
a session and is skipped, the other two are bound in order. -/
theorem claim_C6_bindAll_witness :
    bindAllScrobblers cSessionOk [sLastFm, sLibreFm, sListenBrainz] [] =
      [sLibreFm, sListenBrainz] ∧
    bindScrobbler (bindScrobbler [] sLastFm) sLastFm = bindScrobbler [] sLastFm := by
  obtain ⟨h1, -, -, h4⟩ :=
    claim_C6_bindAll cSessionOk [sLastFm, sLibreFm, sListenBrainz] (by decide)
  exact ⟨h1.trans (by rfl), h4 [] sLastFm⟩

/-- Claim C7 counterexample: sLastFmDup is NOT an element of the bound
list, yet unbind is neither a no-op nor a NotBound signal: because a
label-equal scrobbler is bound the splice branch runs, indexOf yields -1,
and splice(-1, 1) removes the unrelated LAST element (sListenBrainz). -/
theorem claim_C7_cex :
    sLastFmDup ∉ [sLastFm, sListenBrainz] ∧
    sLastFm.label = sLastFmDup.label ∧
    unbindScrobbler [sLastFm, sListenBrainz] sLastFmDup =
      ([sLastFm], UnbindOutcome.removed) := by
  exact ⟨by decide, by rfl, by rfl⟩

/-- Claim C7 (amended): unbind on a backend whose LABEL matches no bound
backend is a no-op that signals NotBound; when the backend itself is an
element of the bound list, unbind removes it (its first occurrence, and
with label-distinct bound lists the backend is gone); when the backend is
absent but a label-equal backend is bound, unbind removes the LAST element
of the bound list instead. -/
theorem claim_C7_unbind (bound : List Scrobbler) (s : Scrobbler) :
    ((¬ ∃ t ∈ bound, t.label = s.label) →
      unbindScrobbler bound s = (bound, UnbindOutcome.notBound)) ∧
    (s ∈ bound →
      unbindScrobbler bound s = (bound.erase s, UnbindOutcome.removed) ∧
      ((labelsOf bound).Nodup → s ∉ (unbindScrobbler bound s).1)) ∧
    ((∃ t ∈ bound, t.label = s.label) → s ∉ bound →
      unbindScrobbler bound s = (bound.dropLast, UnbindOutcome.removed)) := by
  refine ⟨unbind_label_absent bound s, ?_, unbind_label_present_not_mem bound s⟩
  intro hmem
  refine ⟨unbind_mem_eq bound s hmem, ?_⟩
  intro hnodup hin
  rw [unbind_mem_eq bound s hmem] at hin
  have hnd : bound.Nodup := List.Nodup.of_map _ hnodup
  exact absurd rfl ((List.Nodup.mem_erase_iff hnd).mp hin).1

/-- Witness for claim C7 at its three branches. -/
theorem claim_C7_unbind_witness :
    unbindScrobbler [sLastFm] sListenBrainz = ([sLastFm], UnbindOutcome.notBound) ∧
    unbindScrobbler [sLastFm, sListenBrainz] sLastFm =
      ([sListenBrainz], UnbindOutcome.removed) ∧
    unbindScrobbler [sLastFm, sListenBrainz] sLastFmDup =
      ([sLastFm], UnbindOutcome.removed) := by
  obtain ⟨ha, -, -⟩ := claim_C7_unbind [sLastFm] sListenBrainz
  obtain ⟨-, hb, -⟩ := claim_C7_unbind [sLastFm, sListenBrainz] sLastFm
  obtain ⟨-, -, hc⟩ := claim_C7_unbind [sLastFm, sListenBrainz] sLastFmDup
  refine ⟨ha ?_, ((hb (by simp)).1).trans (by rfl),
    (hc ⟨sLastFm, by simp, by rfl⟩ (by decide)).trans (by rfl)⟩
  rintro ⟨t, ht, he⟩
  simp at ht
  rw [ht] at he
  exact absurd he (by decide)

/-- Claim C10: bound-list membership is decided by LABEL equality — bind
inserts iff no bound scrobbler has an equal label, unbind tests presence
the same way — hence after any sequence of bind/unbind operations starting
from the empty bound list no two bound scrobblers share a label, and a
scrobbler with a distinct id but a label equal to a bound one is never
inserted. -/
theorem claim_C10_label_membership (bound : List Scrobbler) (s : Scrobbler)
    (ops : List RegistryOp) :
    ((¬ ∃ t ∈ bound, t.label = s.label) → bindScrobbler bound s = bound ++ [s]) ∧
    ((∃ t ∈ bound, t.label = s.label) → bindScrobbler bound s = bound) ∧
    ((¬ ∃ t ∈ bound, t.label = s.label) →
      unbindScrobbler bound s = (bound, UnbindOutcome.notBound)) ∧
    (labelsOf (applyOps [] ops)).Nodup ∧
    ((∃ t ∈ bound, t.label = s.label) → s ∉ bound → s ∉ bindScrobbler bound s) := by
  refine ⟨bindScrobbler_label_absent bound s, bindScrobbler_label_present bound s,
    unbind_label_absent bound s, applyOps_nodup ops [] List.nodup_nil, ?_⟩
  intro hp hid
  rw [bindScrobbler_label_present bound s hp]
  exact hid

/-- Witness for claim C10: a second scrobbler with a fresh id but the label
of the bound one is rejected by bind, and a three-operation history keeps
the labels duplicate-free. -/
theorem claim_C10_label_membership_witness :
    bindScrobbler [sLastFm] sLastFmDup = [sLastFm] ∧
    sLastFmDup ∉ bindScrobbler [sLastFm] sLastFmDup ∧
    unbindScrobbler [sLastFm] sListenBrainz = ([sLastFm], UnbindOutcome.notBound) ∧
    (labelsOf (applyOps [] [RegistryOp.bind sLastFm, RegistryOp.bind sLastFmDup,
      RegistryOp.unbind sListenBrainz])).Nodup := by
  obtain ⟨-, h2, -, -, h5⟩ := claim_C10_label_membership [sLastFm] sLastFmDup
    [RegistryOp.bind sLastFm, RegistryOp.bind sLastFmDup, RegistryOp.unbind sListenBrainz]
  obtain ⟨-, -, h3, h4, -⟩ := claim_C10_label_membership [sLastFm] sListenBrainz
    [RegistryOp.bind sLastFm, RegistryOp.bind sLastFmDup, RegistryOp.unbind sListenBrainz]
  refine ⟨h2 ⟨sLastFm, by simp, by rfl⟩, h5 ⟨sLastFm, by simp, by rfl⟩ (by decide),
    h3 ?_, h4⟩
  rintro ⟨t, ht, he⟩
  simp at ht
  rw [ht] at he
  exact absurd he (by decide)

end WebScrobbler
